import Mathlib

/-!
Verification development for the agent-chatbot-with-simli repository.

The development shallowly embeds the two stateful hooks of the frontend:

* `useWebsocket` (the agent session channel): local state `WsState`,
  outbound messages `OutMsg`, the operations `sendTextMessage`,
  `resetHistory`, `sendAudioMessage`, and the inbound message handler
  `handleMessage`.
* `useSimliAvatar` (the avatar relay session): state `AvatarState`, the
  operations `connect`, `disconnectAvatar`, `onConnectionStateChange` and
  `sendPcmChunk`.

Stateful React code is embedded as explicit state-passing functions: each
operation takes the hook state and returns the new state together with the
list of messages transmitted on the websocket (or, for the avatar, the
samples written to the outbound media sink).  Machine integers are `Int`
(PCM samples) and `Nat` (timestamps, counts).
-/

namespace AgentChatbot

/-- One conversation turn, from `Message` in `lib/types`: the fields used by
the hook are an optional stable identifier `id`, a `role` string, a text
`content` and a `type` discriminator (`mtype` here, `type` being reserved). -/
structure Message where
  id : Option String
  role : String
  content : String
  mtype : String
deriving Repr, DecidableEq

/-- The identifier of a turn as the JavaScript truthiness test
`"id" in msg && msg.id` sees it: an absent identifier and an empty-string
identifier are both falsy, every non-empty identifier is truthy. -/
def truthyId (m : Message) : Option String :=
  match m.id with
  | none => none
  | some s => if s = "" then none else some s

/-- The deduplication filter of `sendTextMessage` / `sendAudioMessage` in
`useWebsocket`: a left-to-right `Array.prototype.filter` over the history
with a mutable `seenIds : Set<string>`, embedded as explicit recursion with
the seen set threaded through.  A turn with a truthy identifier already in
`seen` is dropped; otherwise the turn is kept and a truthy identifier is
added to `seen`. -/
def dedupFilterAux (seen : List String) : List Message → List Message
  | [] => []
  | m :: rest =>
    match truthyId m with
    | none => m :: dedupFilterAux seen rest
    | some i =>
      if i ∈ seen then dedupFilterAux seen rest
      else m :: dedupFilterAux (i :: seen) rest

/-- `dedupedHistory` as computed in `sendTextMessage` and `sendAudioMessage`:
the deduplication filter started with an empty seen set. -/
def dedupHistory (h : List Message) : List Message :=
  dedupFilterAux [] h

/-- JavaScript `arr.slice(-n)`: the suffix of the last at most `n` elements. -/
def sliceLast (n : Nat) (l : List α) : List α :=
  l.drop (l.length - n)

/-- Modelled from the spec: the PCM codec utility `arrayBufferToBase64` lives
in `lib/utils`, which is not among the provided source files; per spec section 6
the `input_audio_buffer.append` payload is `base64(PCM16LE)`.  This converts
one signed 16-bit sample to its two's-complement little-endian byte pair. -/
def int16ToBytesLE (s : Int) : List Nat :=
  let u := (s % 65536).toNat
  [u % 256, u / 256]

/-- Modelled from the spec: the little-endian byte serialisation of a PCM16
sample buffer (the `Int16Array.buffer` view). -/
def pcm16Bytes (samples : List Int) : List Nat :=
  samples.flatMap int16ToBytesLE

/-- The 64 digits of standard base64. -/
def base64Digit (i : Nat) : Char :=
  "ABCDEFGHIJKLMNOPQRSTUVWXYZabcdefghijklmnopqrstuvwxyz0123456789+/".toList.getD i 'A'

/-- Modelled from the spec: standard base64 of a byte list, with `=` padding. -/
def base64EncodeBytes : List Nat → List Char
  | [] => []
  | [b1] =>
    [base64Digit (b1 / 4), base64Digit (b1 % 4 * 16), '=', '=']
  | [b1, b2] =>
    [base64Digit (b1 / 4), base64Digit (b1 % 4 * 16 + b2 / 16),
     base64Digit (b2 % 16 * 4), '=']
  | b1 :: b2 :: b3 :: rest =>
    base64Digit (b1 / 4) :: base64Digit (b1 % 4 * 16 + b2 / 16) ::
      base64Digit (b2 % 16 * 4 + b3 / 64) :: base64Digit (b3 % 64) ::
      base64EncodeBytes rest

/-- Modelled from the spec: `arrayBufferToBase64` applied to the buffer of an
`Int16Array`, i.e. base64 of the little-endian PCM16 bytes. -/
def arrayBufferToBase64 (samples : List Int) : String :=
  String.mk (base64EncodeBytes (pcm16Bytes samples))

/-- An outbound JSON frame on the websocket, per the three outbound message
shapes built in `useWebsocket`.  `resetAgent = none` models a JSON object
without the `reset_agent` field. -/
inductive OutMsg where
  | historyUpdate (inputs : List Message) (resetAgent : Option Bool)
  | inputAudioBufferAppend (delta : String)
  | inputAudioBufferCommit
deriving Repr, DecidableEq

/-- The local state of the `useWebsocket` hook: the `isReady`, `history`,
`agentName` and `isLoading` React states, plus whether the
`websocket.current` ref holds a connection object. -/
structure WsState where
  isReady : Bool
  history : List Message
  agentName : Option String
  isLoading : Bool
  websocketPresent : Bool
deriving Repr, DecidableEq

/-- `sendTextMessage`: sets the loading flag, dedups the history, keeps the
last 10 deduplicated turns, appends the new user turn, stores the result as
the new history, and — when a websocket object exists (`websocket.current?.send`)
— transmits one `history.update` carrying exactly that new history. -/
def sendTextMessage (st : WsState) (message : String) : WsState × List OutMsg :=
  let dedupedHistory := dedupHistory st.history
  let newHistory :=
    sliceLast 10 dedupedHistory ++ [⟨none, "user", message, "message"⟩]
  ({ st with isLoading := true, history := newHistory },
   if st.websocketPresent then [.historyUpdate newHistory none] else [])

/-- `resetHistory`: clears history, loading flag and agent name, and — when a
websocket object exists — transmits `{type: "history.update", inputs: [],
reset_agent: true}`. -/
def resetHistory (st : WsState) : WsState × List OutMsg :=
  ({ st with history := [], isLoading := false, agentName := none },
   if st.websocketPresent then [.historyUpdate [] (some true)] else [])

/-- The error thrown by `sendAudioMessage` when `websocket.current` is null
(`throw new Error("Websocket not connected")`). -/
inductive WsError where
  | notConnected
deriving Repr, DecidableEq

/-- `sendAudioMessage`: throws `notConnected` when no websocket object exists;
otherwise transmits, in order, a `history.update` with the last 10
deduplicated turns, an `input_audio_buffer.append` with the base64-encoded
frame, and an `input_audio_buffer.commit`.  The local state is untouched. -/
def sendAudioMessage (st : WsState) (audio : List Int) :
    Except WsError (WsState × List OutMsg) :=
  if st.websocketPresent then
    let limitedHistory := sliceLast 10 (dedupHistory st.history)
    .ok (st,
      [.historyUpdate limitedHistory none,
       .inputAudioBufferAppend (arrayBufferToBase64 audio),
       .inputAudioBufferCommit])
  else
    .error .notConnected

/-- An inbound websocket frame as the message listener of `useWebsocket`
distinguishes them after `JSON.parse`: the three recognised types, any other
parsed type (`unexpectedType`), and unparseable text (`malformed`, on which
`JSON.parse` throws before any state is touched). -/
inductive InMsg where
  | historyUpdated (inputs : List Message) (agentName : Option String)
  | responseAudioDelta (delta : String)
  | audioDone
  | unexpectedType (ty : String)
  | malformed
deriving Repr, DecidableEq

/-- The observable effects of one run of the message listener: the deltas
forwarded to the `onNewAudio` callback and the number of `onAudioDone`
invocations. -/
structure HandlerOut where
  newAudioDeltas : List String
  audioDoneCount : Nat
deriving Repr, DecidableEq

/-- Merge the effects of two successive listener runs. -/
def HandlerOut.append (a b : HandlerOut) : HandlerOut :=
  ⟨a.newAudioDeltas ++ b.newAudioDeltas, a.audioDoneCount + b.audioDoneCount⟩

/-- The `message` listener of `useWebsocket`.  On `history.updated` with an
empty `inputs`, reading `.role` of `inputs[inputs.length - 1]` (undefined)
throws before any state update, so the state is unchanged; on a non-empty
`inputs`, the loading flag is cleared when the last turn's role is not
`"user"`, the history is replaced, and a truthy `agent_name` replaces the
agent name.  Audio deltas and `audio.done` only fire callbacks.  An
unrecognised type matches no branch; unparseable text throws in `JSON.parse`.
In all cases outside the three recognised types the state is unchanged. -/
def handleMessage (st : WsState) (msg : InMsg) : WsState × HandlerOut :=
  match msg with
  | .historyUpdated inputs an =>
    match inputs.getLast? with
    | none => (st, ⟨[], 0⟩)
    | some last =>
      let st1 := if last.role ≠ "user" then { st with isLoading := false } else st
      let st2 := { st1 with history := inputs }
      let st3 :=
        match an with
        | some s => if s = "" then st2 else { st2 with agentName := some s }
        | none => st2
      (st3, ⟨[], 0⟩)
  | .responseAudioDelta d => (st, ⟨[d], 0⟩)
  | .audioDone => (st, ⟨[], 1⟩)
  | .unexpectedType _ => (st, ⟨[], 0⟩)
  | .malformed => (st, ⟨[], 0⟩)

/-- Deliver a sequence of inbound frames to the listener, one at a time, the
way the event loop does, merging the observable effects. -/
def processMessages (st : WsState) : List InMsg → WsState × HandlerOut
  | [] => (st, ⟨[], 0⟩)
  | m :: rest =>
    let r := handleMessage st m
    let r2 := processMessages r.1 rest
    (r2.1, r.2.append r2.2)

/-- The `AvatarStatus` union of `useSimliAvatar`. -/
inductive AvatarStatus where
  | disabled
  | idle
  | connecting
  | connected
  | error
deriving Repr, DecidableEq

/-- The state of the `useSimliAvatar` hook: the `status` and `error` React
states, presence booleans for the `pcRef`, `writerRef`, `trackGeneratorRef`
and `audioCtorRef` refs, the running microsecond clock `timestampRef`, and a
log `written` of the `(timestamp, numberOfFrames)` pairs of every `AudioData`
sample written to the outbound track's sink. -/
structure AvatarState where
  status : AvatarStatus
  errMsg : Option String
  pcPresent : Bool
  writerPresent : Bool
  generatorPresent : Bool
  audioCtorPresent : Bool
  timestamp : Nat
  written : List (Nat × Nat)
deriving Repr, DecidableEq

/-- The `disconnect` callback of `useSimliAvatar`: closes and nulls the
writer, stops and nulls the track generator, resets the timestamp clock to
zero, closes and nulls the peer connection, and sets the status to
`nextStatus` when given, else to `idle` when enabled and `disabled` when not. -/
def disconnectAvatar (isEnabled : Bool) (st : AvatarState)
    (nextStatus : Option AvatarStatus) : AvatarState :=
  { st with
    writerPresent := false
    generatorPresent := false
    timestamp := 0
    pcPresent := false
    status := nextStatus.getD (if isEnabled then .idle else .disabled) }

/-- The `RTCPeerConnection.connectionState` values. -/
inductive PCConnState where
  | fresh
  | connecting
  | connected
  | disconnected
  | failed
  | closed
deriving Repr, DecidableEq

/-- The `pc.onconnectionstatechange` handler installed by `connect`: on
`failed` or `disconnected` it records a lost-connection error and tears down
into status `error`; on `connected` it sets the status to `connected`;
otherwise it does nothing. -/
def onConnectionStateChange (isEnabled : Bool) (st : AvatarState)
    (cs : PCConnState) : AvatarState :=
  if cs = .failed ∨ cs = .disconnected then
    disconnectAvatar isEnabled
      { st with errMsg := some "Connection to Simli avatar was lost." }
      (some .error)
  else if cs = .connected then
    { st with status := .connected }
  else
    st

/-- The environment a single `connect()` call runs against: whether an avatar
identifier is configured (`isEnabled`), whether `window.MediaStreamTrackGenerator`
exists, whether the browser-local steps before the HTTP exchange
(`createOffer`, `setLocalDescription`, ICE gathering, reading the local SDP)
fail, and the outcome of the HTTP offer exchange — `Except.error` for a
rejected fetch or a non-ok status, `Except.ok none` for an ok response whose
body lacks an `sdp` field, `Except.ok (some sdp)` for a usable answer. -/
structure ConnectEnv where
  isEnabled : Bool
  generatorAvailable : Bool
  localNegotiationError : Option String
  offerResponse : Except String String

/-- Whether the offer response carries a non-empty (truthy) `sdp` answer. -/
def ConnectEnv.answerSdp (env : ConnectEnv) : Except String (Option String) :=
  match env.offerResponse with
  | .error e => .error e
  | .ok s => .ok (if s = "" then none else some s)

/-- The `connect` callback of `useSimliAvatar`, run to completion.  The pair's
second component counts HTTP offer exchanges performed by this call.  Guards,
in source order: not enabled → status `disabled`; a peer connection already
exists → plain return; missing `AudioData` constructor or missing
`MediaStreamTrackGenerator` → status `error` with a message.  Otherwise the
status becomes `connecting`, the session handles (`pcRef`, generator, writer)
are set, and the `try` block runs: a failure before the fetch, a failed
fetch, or a missing `sdp` answer each record an error message and tear down
into status `error`; on a usable answer the remote description is applied and
the status is set to `connected` — by `connect` itself, with no transport
connectivity event involved. -/
def connect (env : ConnectEnv) (st : AvatarState) : AvatarState × Nat :=
  if ¬env.isEnabled then ({ st with status := .disabled }, 0)
  else if st.pcPresent then (st, 0)
  else if ¬st.audioCtorPresent then
    ({ st with status := .error
               errMsg := some "AudioData API is not available in this browser." }, 0)
  else if ¬env.generatorAvailable then
    ({ st with status := .error
               errMsg := some "MediaStreamTrackGenerator API is not available in this browser." }, 0)
  else
    let st1 := { st with
      status := .connecting, errMsg := none,
      pcPresent := true, generatorPresent := true, writerPresent := true }
    match env.localNegotiationError with
    | some e => (disconnectAvatar env.isEnabled { st1 with errMsg := some e } (some .error), 0)
    | none =>
      match env.answerSdp with
      | .error e =>
        (disconnectAvatar env.isEnabled { st1 with errMsg := some e } (some .error), 1)
      | .ok none =>
        (disconnectAvatar env.isEnabled
          { st1 with errMsg := some "Simli offer response did not include an SDP answer" }
          (some .error), 1)
      | .ok (some _) => ({ st1 with status := .connected }, 1)

/-- The per-call advance of the microsecond clock in `sendPcmChunk`:
`Math.round((numberOfFrames / 24000) * 1_000_000)`, i.e. the nearest integer
to `numberOfFrames * 1e6 / 24000` (the quotient `numberOfFrames * 125 / 3`
never lands exactly on a half, so every rounding convention agrees). -/
def tsIncrement (numberOfFrames : Nat) : Nat :=
  (numberOfFrames * 1000000 * 2 + 24000) / 48000

/-- The `sendPcmChunk` callback of `useSimliAvatar`: a no-op unless a writer
exists and the status is `connected` and the `AudioData` constructor is
available and the chunk is non-empty; otherwise it writes one sample stamped
with the current clock to the sink and advances the clock by
`tsIncrement numberOfFrames`.  The chunk is the `Int16Array` content, so
`numberOfFrames = byteLength / 2` is its length. -/
def sendPcmChunk (st : AvatarState) (chunk : List Int) : AvatarState :=
  if ¬st.writerPresent ∨ st.status ≠ .connected then st
  else if ¬st.audioCtorPresent then st
  else
    let numberOfFrames := chunk.length
    if numberOfFrames = 0 then st
    else
      { st with
        written := st.written ++ [(st.timestamp, numberOfFrames)]
        timestamp := st.timestamp + tsIncrement numberOfFrames }

/-- Run a sequence of `sendPcmChunk` calls in order. -/
def runPcmChunks (st : AvatarState) : List (List Int) → AvatarState
  | [] => st
  | c :: cs => runPcmChunks (sendPcmChunk st c) cs

/-- The turns surviving after a kept turn `m`: all of `rest` when `m` has no
truthy identifier, otherwise `rest` without the turns sharing `m`'s
identifier.  Used by the spec-side formulation of the deduplication rule. -/
def survivorsAfter (m : Message) (rest : List Message) : List Message :=
  match truthyId m with
  | none => rest
  | some i => rest.filter fun m2 => truthyId m2 ≠ some i

theorem survivorsAfter_length_le (m : Message) (rest : List Message) :
    (survivorsAfter m rest).length ≤ rest.length := by
  unfold survivorsAfter
  cases truthyId m with
  | none => exact Nat.le_refl _
  | some i => exact List.length_filter_le _ _

/-- The deduplication rule as the spec words it: scanning left to right, every
turn is kept the first time its (non-empty) identifier is seen, every later
turn carrying an already-seen identifier is dropped, and turns without an
identifier are always kept; the relative order of survivors is that of the
input. -/
def eraseLaterDups : List Message → List Message
  | [] => []
  | m :: rest => m :: eraseLaterDups (survivorsAfter m rest)
termination_by l => l.length
decreasing_by
  simp only [List.length_cons]
  exact Nat.lt_succ_of_le (survivorsAfter_length_le m rest)

/-- Whether a turn survives a seen set: true when its identifier is absent,
empty, or not yet seen. -/
def keepWrt (seen : List String) (m : Message) : Bool :=
  match truthyId m with
  | none => true
  | some i => if i ∈ seen then false else true

theorem keepWrt_cons (i : String) (seen : List String) (m : Message) :
    keepWrt (i :: seen) m = (decide (truthyId m ≠ some i) && keepWrt seen m) := by
  unfold keepWrt
  cases h : truthyId m with
  | none => simp
  | some j =>
    by_cases hj : j = i
    · subst hj
      simp [List.mem_cons]
    · by_cases hs : j ∈ seen <;> simp [List.mem_cons, hj, hs]

theorem dedupFilterAux_eq_eraseLaterDups (l : List Message) :
    ∀ seen : List String, dedupFilterAux seen l = eraseLaterDups (l.filter (keepWrt seen)) := by
  induction l with
  | nil => intro seen; simp [dedupFilterAux, eraseLaterDups]
  | cons m rest ih =>
    intro seen
    cases h : truthyId m with
    | none =>
      have hk : keepWrt seen m = true := by simp [keepWrt, h]
      simp only [dedupFilterAux, h, List.filter_cons, hk, if_true]
      rw [eraseLaterDups]
      simp only [survivorsAfter, h]
      rw [ih seen]
    | some i =>
      by_cases hi : i ∈ seen
      · have hk : keepWrt seen m = false := by simp [keepWrt, h, hi]
        simp only [dedupFilterAux, h, hi, if_true, List.filter_cons, hk]
        exact ih seen
      · have hk : keepWrt seen m = true := by simp [keepWrt, h, hi]
        have hf : rest.filter (keepWrt (i :: seen)) =
            (rest.filter (keepWrt seen)).filter (fun m2 => decide (truthyId m2 ≠ some i)) := by
          rw [List.filter_filter]
          exact List.filter_congr fun m2 _ => keepWrt_cons i seen m2
        simp only [dedupFilterAux, h, hi, if_false, List.filter_cons, hk, if_true]
        rw [eraseLaterDups]
        simp only [survivorsAfter, h]
        rw [ih (i :: seen), hf]

theorem dedupFilterAux_sublist (l : List Message) :
    ∀ seen : List String, (dedupFilterAux seen l).Sublist l := by
  induction l with
  | nil => intro seen; simp [dedupFilterAux]
  | cons m rest ih =>
    intro seen
    cases h : truthyId m with
    | none =>
      simp only [dedupFilterAux, h]
      exact (ih seen).cons₂ m
    | some i =>
      by_cases hi : i ∈ seen
      · simp only [dedupFilterAux, h, hi, if_true]
        exact (ih seen).cons m
      · simp only [dedupFilterAux, h, hi, if_false]
        exact (ih (i :: seen)).cons₂ m

theorem keepWrt_nil (m : Message) : keepWrt [] m = true := by
  unfold keepWrt
  cases truthyId m <;> simp

/-- The sample log `sendAudioFrame` is specified to produce: the `k`-th write
is stamped `t0` plus the rounded increments of the first `k` chunks and
carries the `k`-th chunk's frame count. -/
def expectedWritten (t0 : Nat) : List Nat → List (Nat × Nat)
  | [] => []
  | f :: fs => (t0, f) :: expectedWritten (t0 + tsIncrement f) fs

theorem expectedWritten_head_ts (t0 : Nat) (fs : List Nat) :
    ∀ p ∈ (expectedWritten t0 fs).head?, p.1 = t0 := by
  cases fs with
  | nil => intro p hp; simp [expectedWritten] at hp
  | cons f fs =>
    intro p hp
    simp [expectedWritten] at hp
    subst hp
    rfl

theorem expectedWritten_chain (t0 : Nat) (fs : List Nat) :
    List.Chain' (fun a b : Nat × Nat => a.1 ≤ b.1) (expectedWritten t0 fs) := by
  induction fs generalizing t0 with
  | nil => simp [expectedWritten]
  | cons f fs ih =>
    rw [expectedWritten, List.chain'_cons']
    refine ⟨?_, ih (t0 + tsIncrement f)⟩
    intro b hb
    have := expectedWritten_head_ts (t0 + tsIncrement f) fs b hb
    omega

theorem runPcmChunks_written (chunks : List (List Int)) :
    ∀ st : AvatarState, st.writerPresent = true → st.status = .connected →
      st.audioCtorPresent = true → (∀ c ∈ chunks, c ≠ []) →
      (runPcmChunks st chunks).written =
        st.written ++ expectedWritten st.timestamp (chunks.map List.length) := by
  induction chunks with
  | nil => intro st _ _ _ _; simp [runPcmChunks, expectedWritten]
  | cons c cs ih =>
    intro st hw hs ha hne
    have hc : c ≠ [] := hne c (List.mem_cons_self c cs)
    have hlen : c.length ≠ 0 := fun h => hc (List.length_eq_zero.mp h)
    have hstep : sendPcmChunk st c =
        { st with
          written := st.written ++ [(st.timestamp, c.length)]
          timestamp := st.timestamp + tsIncrement c.length } := by
      simp [sendPcmChunk, hw, hs, ha, hlen]
    rw [runPcmChunks, hstep]
    rw [ih _ (by simpa using hw) (by simpa using hs) (by simpa using ha)
        (fun c hc2 => hne c (List.mem_cons_of_mem _ hc2))]
    simp [expectedWritten, List.append_assoc]

theorem connect_pc_guard (env : ConnectEnv) (st : AvatarState)
    (he : env.isEnabled = true) (hp : st.pcPresent = true) :
    connect env st = (st, 0) := by
  simp [connect, he, hp]

/-- The lengths of the `inputs` arrays of the `history.update` frames among a
list of outbound frames. -/
def sentHistoryLens : List OutMsg → List Nat
  | [] => []
  | .historyUpdate inputs _ :: rest => inputs.length :: sentHistoryLens rest
  | .inputAudioBufferAppend _ :: rest => sentHistoryLens rest
  | .inputAudioBufferCommit :: rest => sentHistoryLens rest

theorem sliceLast_length_le (n : Nat) (l : List α) : (sliceLast n l).length ≤ n := by
  simp only [sliceLast, List.length_drop]
  omega

/-- A user turn without an identifier, for concrete instantiations. -/
def turnNoId : Message := ⟨none, "user", "x", "message"⟩

/-- An agent turn, for concrete instantiations. -/
def turnAgent : Message := ⟨some "a1", "assistant", "hello", "message"⟩

/-- A channel state with an open websocket and ten stored turns. -/
def wsOpenTen : WsState := ⟨true, List.replicate 10 turnNoId, none, false, true⟩

/-- A channel state whose websocket ref is null. -/
def wsClosedState : WsState := ⟨false, [turnNoId], some "Concierge", true, false⟩

/-- C1 counterexample: with ten stored turns (none carrying an identifier, so
deduplication keeps all of them), `sendTextMessage` transmits a
`history.update` whose `inputs` has 11 entries — the sliced last 10 turns
plus the newly appended user turn — exceeding the claimed bound of 10. -/
theorem sendTextMessage_exceeds_ten :
    sentHistoryLens (sendTextMessage wsOpenTen "hi").2 = [11] ∧ 10 < 11 := by
  constructor
  · rfl
  · decide

/-- C1 (amended): every `history.update` transmitted by `sendAudioMessage`
carries at most 10 entries, and every `history.update` transmitted by
`sendTextMessage` carries at most 11 entries (the last 10 deduplicated turns
plus the newly appended user turn). -/
theorem historyUpdate_window_bounds (st : WsState) (m : String) (audio : List Int)
    (r : WsState × List OutMsg) (n k : Nat)
    (hn : n ∈ sentHistoryLens (sendTextMessage st m).2)
    (hr : sendAudioMessage st audio = .ok r)
    (hk : k ∈ sentHistoryLens r.2) :
    n ≤ 11 ∧ k ≤ 10 := by
  have hslice := sliceLast_length_le 10 (dedupHistory st.history)
  constructor
  · by_cases hw : st.websocketPresent
    · simp [sendTextMessage, sentHistoryLens, hw] at hn
      omega
    · simp [sendTextMessage, sentHistoryLens, hw] at hn
  · by_cases hw : st.websocketPresent
    · simp [sendAudioMessage, hw] at hr
      rw [← hr] at hk
      simp [sentHistoryLens] at hk
      omega
    · simp [sendAudioMessage, hw] at hr

/-- C1 amended witness at the ten-turn open-channel state. -/
theorem historyUpdate_window_bounds_holds : 11 ≤ 11 ∧ 10 ≤ 10 :=
  historyUpdate_window_bounds wsOpenTen "hi" [0]
    (wsOpenTen, [.historyUpdate (List.replicate 10 turnNoId) none,
                 .inputAudioBufferAppend "AAA=", .inputAudioBufferCommit])
    11 10 (by decide) rfl (by decide)

/-- C2: with a websocket object present, `sendAudioMessage` transmits exactly
three frames in order — the deduplicated 10-turn window as a
`history.update`, the base64-encoded frame as an `input_audio_buffer.append`,
and an `input_audio_buffer.commit` — leaving the local state untouched; with
no websocket object it throws `notConnected` and transmits nothing. -/
theorem sendAudioMessage_protocol (st : WsState) (audio : List Int) :
    (st.websocketPresent = false → sendAudioMessage st audio = .error .notConnected) ∧
    (st.websocketPresent = true →
      sendAudioMessage st audio =
        .ok (st, [.historyUpdate (sliceLast 10 (dedupHistory st.history)) none,
                  .inputAudioBufferAppend (arrayBufferToBase64 audio),
                  .inputAudioBufferCommit])) := by
  constructor <;> intro h <;> simp [sendAudioMessage, h]

/-- C2 witness: one closed-channel state and one open ten-turn state. -/
theorem sendAudioMessage_protocol_holds :
    sendAudioMessage wsClosedState [0] = .error .notConnected ∧
    sendAudioMessage wsOpenTen [0] =
      .ok (wsOpenTen, [.historyUpdate (List.replicate 10 turnNoId) none,
                       .inputAudioBufferAppend "AAA=", .inputAudioBufferCommit]) :=
  ⟨(sendAudioMessage_protocol wsClosedState [0]).1 rfl,
   (sendAudioMessage_protocol wsOpenTen [0]).2 rfl⟩

/-- C4: an inbound frame of an unrecognised type, or one on which `JSON.parse`
throws, leaves the whole listener state (history, loading flag, agent name,
readiness) unchanged and fires no callback, and delivering the rest of the
inbound sequence after it gives exactly the state and effects the rest alone
would give. -/
theorem malformed_message_ignored (st : WsState) (ty : String) (rest : List InMsg) :
    handleMessage st (.unexpectedType ty) = (st, ⟨[], 0⟩) ∧
    handleMessage st .malformed = (st, ⟨[], 0⟩) ∧
    processMessages st (.unexpectedType ty :: rest) = processMessages st rest ∧
    processMessages st (.malformed :: rest) = processMessages st rest := by
  refine ⟨rfl, rfl, ?_, ?_⟩ <;> simp [processMessages, handleMessage, HandlerOut.append]

/-- C5: the transmission-time deduplication filter of the hook equals the
spec-side rule `eraseLaterDups` — keep the first occurrence of each non-empty
identifier, drop later turns with an already-seen identifier, always keep
identifier-less turns — and its output is a sublist of the input, so the
relative order of survivors is preserved. -/
theorem dedupHistory_first_occurrences (H : List Message) :
    dedupHistory H = eraseLaterDups H ∧ (dedupHistory H).Sublist H := by
  constructor
  · have h := dedupFilterAux_eq_eraseLaterDups H []
    rwa [List.filter_congr (fun m _ => keepWrt_nil m), List.filter_true] at h
  · exact dedupFilterAux_sublist H []

/-- C6: on an inbound `history.updated` with a non-empty turn list the local
history becomes the message's turn list; the loading flag is cleared when the
last turn's role is not `"user"` and is left unchanged when it is. -/
theorem historyUpdated_loading_flag (st : WsState) (inputs : List Message)
    (an : Option String) (last : Message) (h : inputs.getLast? = some last) :
    (handleMessage st (.historyUpdated inputs an)).1.history = inputs ∧
    (last.role ≠ "user" → (handleMessage st (.historyUpdated inputs an)).1.isLoading = false) ∧
    (last.role = "user" → (handleMessage st (.historyUpdated inputs an)).1.isLoading = st.isLoading) := by
  refine ⟨?_, fun hr => ?_, fun hr => ?_⟩ <;>
  · cases an with
    | none => by_cases hu : last.role = "user" <;> simp [handleMessage, h, hu] <;> simp_all
    | some s =>
      by_cases hu : last.role = "user" <;> by_cases hs : s = "" <;>
        simp [handleMessage, h, hu, hs] <;> simp_all

/-- C6 witness: an agent-role last turn clears the loading flag and replaces
the history. -/
theorem historyUpdated_loading_flag_holds :
    (handleMessage wsClosedState (.historyUpdated [turnAgent] none)).1.history = [turnAgent] ∧
    (handleMessage wsClosedState (.historyUpdated [turnAgent] none)).1.isLoading = false :=
  ⟨(historyUpdated_loading_flag wsClosedState [turnAgent] none turnAgent rfl).1,
   (historyUpdated_loading_flag wsClosedState [turnAgent] none turnAgent rfl).2.1 (by decide)⟩

/-- C9: from any prior local state with a websocket object present,
`resetHistory` empties the history, clears the loading flag, nulls the agent
name, and transmits exactly `{type: "history.update", inputs: [],
reset_agent: true}`. -/
theorem resetHistory_clears_and_transmits (st : WsState)
    (h : st.websocketPresent = true) :
    resetHistory st =
      ({ st with history := [], isLoading := false, agentName := none },
       [.historyUpdate [] (some true)]) := by
  simp [resetHistory, h]

/-- C9 witness at the open ten-turn state. -/
theorem resetHistory_clears_and_transmits_holds :
    resetHistory wsOpenTen =
      (⟨true, [], none, false, true⟩, [.historyUpdate [] (some true)]) :=
  resetHistory_clears_and_transmits wsOpenTen rfl

/-- C10: with no websocket object, `sendTextMessage` and `resetHistory` still
perform all their local state updates but transmit nothing and throw nothing
(they are total functions into state-and-messages), while `sendAudioMessage`
throws `notConnected`. -/
theorem offline_behaviour (st : WsState) (m : String) (audio : List Int)
    (h : st.websocketPresent = false) :
    (sendTextMessage st m).2 = [] ∧
    (sendTextMessage st m).1 =
      { st with isLoading := true,
                history := sliceLast 10 (dedupHistory st.history) ++ [⟨none, "user", m, "message"⟩] } ∧
    (resetHistory st).2 = [] ∧
    (resetHistory st).1 = { st with history := [], isLoading := false, agentName := none } ∧
    sendAudioMessage st audio = .error .notConnected := by
  refine ⟨?_, ?_, ?_, ?_, ?_⟩ <;> simp [sendTextMessage, resetHistory, sendAudioMessage, h]

/-- C10 witness at the null-websocket state. -/
theorem offline_behaviour_holds :
    (sendTextMessage wsClosedState "hi").2 = [] ∧
    (sendTextMessage wsClosedState "hi").1 =
      { wsClosedState with isLoading := true,
                           history := sliceLast 10 (dedupHistory wsClosedState.history) ++
                             [⟨none, "user", "hi", "message"⟩] } ∧
    (resetHistory wsClosedState).2 = [] ∧
    (resetHistory wsClosedState).1 =
      { wsClosedState with history := [], isLoading := false, agentName := none } ∧
    sendAudioMessage wsClosedState [0] = .error .notConnected :=
  offline_behaviour wsClosedState "hi" [0] rfl

/-- An environment in which negotiation succeeds: avatar configured, generator
available, no browser-local failure, and an HTTP answer with a usable SDP. -/
def goodOfferEnv : ConnectEnv := ⟨true, true, none, .ok "v=0"⟩

/-- A fresh enabled avatar state before any negotiation. -/
def avatarIdleState : AvatarState := ⟨.idle, none, false, false, false, true, 0, []⟩

/-- An avatar state mid-negotiation: the session handle is already set. -/
def avatarPendingState : AvatarState := ⟨.connecting, none, true, true, true, true, 0, []⟩

/-- A freshly connected avatar state with the clock at zero and nothing
written yet. -/
def avatarConnectedFresh : AvatarState := ⟨.connected, none, true, true, true, true, 0, []⟩

/-- C3 counterexample: a successful `connect` run — which contains no
transport-level connectivity event — already ends with status `connected`,
immediately after the remote SDP answer is applied, so applying the answer
alone does make the status `connected`. -/
theorem connect_connected_without_transport :
    (connect goodOfferEnv avatarIdleState).1.status = .connected ∧
    avatarIdleState.status ≠ .connected := by
  constructor
  · rfl
  · decide

/-- C3 (amended): the status becomes `connected` both on the transport-level
connected callback and, independently of any transport event, inside
`connect` itself immediately after the remote SDP answer is successfully
applied. -/
theorem connected_on_answer_or_transport :
    (∀ (isEnabled : Bool) (st : AvatarState),
        onConnectionStateChange isEnabled st .connected = { st with status := .connected }) ∧
    (∀ (env : ConnectEnv) (st : AvatarState) (sdp : String),
        env.isEnabled = true → st.pcPresent = false → st.audioCtorPresent = true →
        env.generatorAvailable = true → env.localNegotiationError = none →
        env.offerResponse = .ok sdp → sdp ≠ "" →
        (connect env st).1.status = .connected) := by
  constructor
  · intro isEnabled st
    simp [onConnectionStateChange]
  · intro env st sdp he hp ha hg hl ho hs
    simp [connect, he, hp, ha, hg, hl, ConnectEnv.answerSdp, ho, hs]

/-- C3 amended witness: the transport callback and a concrete successful
negotiation both yield status `connected`. -/
theorem connected_on_answer_or_transport_holds :
    onConnectionStateChange true avatarPendingState .connected =
      { avatarPendingState with status := .connected } ∧
    (connect goodOfferEnv avatarIdleState).1.status = .connected :=
  ⟨connected_on_answer_or_transport.1 true avatarPendingState,
   connected_on_answer_or_transport.2 goodOfferEnv avatarIdleState "v=0"
     rfl rfl rfl rfl rfl rfl (by decide)⟩

/-- C7: from a freshly (re)connected state — clock at zero, nothing written,
writer and `AudioData` available — a sequence of `sendPcmChunk` calls with
non-empty chunks writes samples whose timestamps start at 0 and advance by
`tsIncrement` of each chunk's frame count, and are therefore non-decreasing. -/
theorem sendPcmChunk_timestamps (st : AvatarState) (chunks : List (List Int))
    (hw : st.writerPresent = true) (hs : st.status = .connected)
    (ha : st.audioCtorPresent = true) (ht : st.timestamp = 0) (hl : st.written = [])
    (hne : ∀ c ∈ chunks, c ≠ []) :
    (runPcmChunks st chunks).written = expectedWritten 0 (chunks.map List.length) ∧
    List.Chain' (fun a b : Nat × Nat => a.1 ≤ b.1) (runPcmChunks st chunks).written := by
  have h := runPcmChunks_written chunks st hw hs ha hne
  rw [hl, ht, List.nil_append] at h
  exact ⟨h, h ▸ expectedWritten_chain 0 _⟩

/-- C7 witness: two chunks of 1 and 2 samples give writes stamped 0 and 42
microseconds (`round(1/24000 * 1e6) = 42`). -/
theorem sendPcmChunk_timestamps_holds :
    (runPcmChunks avatarConnectedFresh [[0], [1, 2]]).written = [(0, 1), (42, 2)] ∧
    List.Chain' (fun a b : Nat × Nat => a.1 ≤ b.1)
      (runPcmChunks avatarConnectedFresh [[0], [1, 2]]).written :=
  sendPcmChunk_timestamps avatarConnectedFresh [[0], [1, 2]]
    rfl rfl rfl rfl rfl (by decide)

/-- C8: while the session handle is set (a negotiation exists or is pending),
a further `connect` call returns the state unchanged and performs no HTTP
offer exchange; a successful first call performs exactly one, so a second
call right after it adds none. -/
theorem connect_noop_when_pending :
    (∀ (env : ConnectEnv) (st : AvatarState),
        env.isEnabled = true → st.pcPresent = true → connect env st = (st, 0)) ∧
    (∀ (env : ConnectEnv) (st : AvatarState) (sdp : String),
        env.isEnabled = true → st.pcPresent = false → st.audioCtorPresent = true →
        env.generatorAvailable = true → env.localNegotiationError = none →
        env.offerResponse = .ok sdp → sdp ≠ "" →
        (connect env st).2 = 1 ∧
        connect env (connect env st).1 = ((connect env st).1, 0)) := by
  constructor
  · exact fun env st he hp => connect_pc_guard env st he hp
  · intro env st sdp he hp ha hg hl ho hs
    refine ⟨?_, ?_⟩
    · simp [connect, he, hp, ha, hg, hl, ConnectEnv.answerSdp, ho, hs]
    · apply connect_pc_guard env _ he
      simp [connect, he, hp, ha, hg, hl, ConnectEnv.answerSdp, ho, hs]

/-- C8 witness: with the handle set, `connect` is a no-op with zero offers;
a concrete successful call makes one offer and the follow-up call none. -/
theorem connect_noop_when_pending_holds :
    connect goodOfferEnv avatarPendingState = (avatarPendingState, 0) ∧
    (connect goodOfferEnv avatarIdleState).2 = 1 ∧
    connect goodOfferEnv (connect goodOfferEnv avatarIdleState).1 =
      ((connect goodOfferEnv avatarIdleState).1, 0) :=
  ⟨connect_noop_when_pending.1 goodOfferEnv avatarPendingState rfl rfl,
   (connect_noop_when_pending.2 goodOfferEnv avatarIdleState "v=0"
      rfl rfl rfl rfl rfl rfl (by decide)).1,
   (connect_noop_when_pending.2 goodOfferEnv avatarIdleState "v=0"
      rfl rfl rfl rfl rfl rfl (by decide)).2⟩

end AgentChatbot
